import Mathlib

/-!
Verification of the ebpf-profiler core against its natural-language
specification.  Machine integers (u32/u64 in the Go source) are modelled
as `Nat` with explicit bounds and `% 2^w` where wrap-around matters.
Fallible Go functions returning `(T, error)` are modelled as `Except
String T` or as pairs with an `Option String` error component.  Kernel
maps, syscall outcomes and file contents are passed in explicitly as
parameters of the embedded functions.
-/

namespace EbpfProfiler

/-- Width constant: the number of values of a `uint32`. -/
def U32 : Nat := 2 ^ 32

/-- Width constant: the number of values of a `uint64`. -/
def U64 : Nat := 2 ^ 64

/-- Wrapping u64 subtraction, as performed by Go's `a - b` on `uint64`
operands (used by `computeSlide`). -/
def sub64 (a b : Nat) : Nat := (U64 + a - b) % U64

/-- `symbolizer.Symbol` from `internal/symbolizer/model.go`: a resolved
frame with a `Name` and a `PC` field (the kallsyms resolver stores the
offset `pc - addr` in `PC`). -/
structure Symbol where
  name : String
  pc : Nat
  deriving DecidableEq, Repr

/-! ## Stack-key packing (internal/profiler/ebpf_profiler.go and
internal/profiler/profiler_test.go) -/

/-- `packKey` from `internal/profiler/profiler_test.go`:
`(uint64(user) << 32) | uint64(kern)`. -/
def packKey (user kern : Nat) : Nat := (user <<< 32) ||| kern

/-- `unpackKey` from `internal/profiler/ebpf_profiler.go`:
`userID = uint32(key >> 32); kernID = uint32(key & 0xffffffff)`.
The `uint32` conversions truncate, hence the `% U32`. -/
def unpackKey (key : Nat) : Nat × Nat :=
  ((key >>> 32) % U32, (key &&& 0xffffffff) % U32)

/-! ## eBPF backend (internal/profiler/ebpf_profiler.go) -/

/-- `missingSentinel` constant: `0xFFFFFFFF` marks an absent stack side. -/
def missingSentinel : Nat := 0xFFFFFFFF

/-- `maxStackFrames` constant: fixed length of a stacks-map entry. -/
def maxStackFrames : Nat := 127

/-- Outcomes of the syscalls performed by the backend, supplied as an
environment: whether `perf_event_open`/`SET_BPF`/`ENABLE` all succeed,
the number of online CPUs, and whether the `unix.Close`/`objs.Close`
calls fail during `Stop`. -/
structure EbpfEnv where
  attachOk : Bool
  numCPUs : Nat
  fdCloseErr : Bool
  objsCloseErr : Bool
  deriving DecidableEq, Repr

/-- The mutable state of `ebpfProfiler`: the `started` flag, the
perf-event fd list, and whether the loaded BPF objects were closed. -/
structure EbpfState where
  started : Bool
  perfFDs : List Nat
  objsClosed : Bool
  deriving DecidableEq, Repr

/-- `ebpfProfiler.Start`: fails when already started; on any attach
failure all previously opened fds are closed and the state is left
unchanged; on success records one fd per CPU and sets `started`. -/
def ebpfStart (env : EbpfEnv) (s : EbpfState) : EbpfState × Option String :=
  if s.started then (s, some "profiler already attached")
  else if env.attachOk then
    ({ s with started := true, perfFDs := List.range env.numCPUs }, none)
  else (s, some "perf_event_open")

/-- `ebpfProfiler.Stop`: when not started it still closes the BPF
objects and returns `nil`; otherwise it disables and closes every perf
fd (a failing `unix.Close` sets the returned error), clears the fd
list and the flag, and closes the objects (whose close error is
reported only when no fd close failed). -/
def ebpfStop (env : EbpfEnv) (s : EbpfState) : EbpfState × Option String :=
  if s.started = false then ({ s with objsClosed := true }, none)
  else
    let fdErr : Option String :=
      if env.fdCloseErr ∧ s.perfFDs ≠ [] then some "close perf fd" else none
    let resultErr : Option String :=
      if fdErr = none ∧ env.objsCloseErr then some "closing BPF objects" else fdErr
    ({ s with perfFDs := [], started := false, objsClosed := true }, resultErr)

/-- The per-CPU summation inside `SnapshotCounts`:
`var sum uint64; for i := 0; i < numCPUs; i++ { sum += perCpuVals[i] }`
(`uint64` addition wraps). -/
def sum64 (vals : List Nat) : Nat := vals.foldl (fun acc v => (acc + v) % U64) 0

/-- `ebpfProfiler.SnapshotCounts`: fails when not started; otherwise
iterates the per-CPU `counts` map (modelled as the iteration sequence
of `(key, per-CPU slots)` pairs), sums each key's slots and keeps the
entries whose sum is positive. -/
def snapshotCounts (s : EbpfState) (counts : List (Nat × List Nat)) :
    Except String (List (Nat × Nat)) :=
  if s.started = false then .error "profiler not started"
  else
    .ok (counts.foldl
      (fun results kv =>
        if 0 < sum64 kv.2 then results ++ [(kv.1, sum64 kv.2)] else results)
      [])

/-- The zero-trimming loop inside `readFrames`: frames up to (and
excluding) the first zero PC of the fixed-length entry. -/
def trimZeros : List Nat → List Nat
  | [] => []
  | a :: rest => if a = 0 then [] else a :: trimZeros rest

/-- The `readFrames` closure of `ebpfProfiler.LookupStacks`: the
sentinel id yields no frames; a map miss or lookup error (`Lookup`
returning non-nil, modelled as `none`) yields no frames and no error;
otherwise the entry is read and trailing zeros are trimmed. -/
def readFrames (stacksMap : Nat → Option (List Nat)) (id : Nat) : List Nat :=
  if id = missingSentinel then []
  else
    match stacksMap id with
    | none => []
    | some raw => trimZeros raw

/-- `ebpfProfiler.LookupStacks`: fails when not started, otherwise
resolves both stack ids through `readFrames`. -/
def lookupStacks (s : EbpfState) (stacksMap : Nat → Option (List Nat))
    (userID kernID : Nat) : Except String (List Nat × List Nat) :=
  if s.started = false then .error "profiler not started"
  else .ok (readFrames stacksMap userID, readFrames stacksMap kernID)

/-! ## Profiler façade and collector (profiler.go, the unnamed source
file of package profiler) -/

/-- State of the `Profiler` façade: the `started` flag, the cancellation
token (`ctx`/`cancel`), whether the collector goroutine is running
(`wg`), and whether `samplesCh` has been closed. -/
structure ProfilerState where
  started : Bool
  cancelled : Bool
  collectorRunning : Bool
  chClosed : Bool
  deriving DecidableEq, Repr

/-- `Profiler.Start`: fails when already started; on backend failure the
`started` flag is reset and the error propagated; on success the
collector goroutine is spawned. -/
def profilerStart (env : EbpfEnv) (p : ProfilerState) (e : EbpfState) :
    (ProfilerState × EbpfState) × Option String :=
  if p.started then ((p, e), some "profiler already started")
  else
    match ebpfStart env e with
    | (e1, none) => (({ p with started := true, collectorRunning := true }, e1), none)
    | (e1, some err) => (({ p with started := false }, e1), some err)

/-- `Profiler.Stop`: cancels the context, calls `backend.Stop()`, waits
for the collector to exit, then runs `close(p.samplesCh)` and clears
`started`.  Closing an already-closed Go channel panics, which is
modelled by the `Except.error` result; the normal return carries the
backend's stop error. -/
def profilerStop (env : EbpfEnv) (p : ProfilerState) (e : EbpfState) :
    Except String (ProfilerState × EbpfState × Option String) :=
  let p1 := { p with cancelled := true }
  let (e1, backendErr) := ebpfStop env e
  let p2 := { p1 with collectorRunning := false }
  if p2.chClosed then .error "close of closed channel"
  else .ok ({ p2 with chClosed := true, started := false }, e1, backendErr)

/-- One aggregated observation (`profiler.Sample`). -/
structure Sample where
  timestamp : Nat
  userStack : List Symbol
  kernelStack : List Symbol
  count : Nat
  deriving DecidableEq, Repr

/-- The backend and symbolizer calls one collector tick performs,
supplied as an environment: the `SnapshotCounts` result (the map's
iteration sequence), `LookupStacks`, and `Symbolize` for both sides. -/
structure CollectorEnv where
  snapshot : Except String (List (Nat × Nat))
  lookup : Nat → Nat → Except String (List Nat × List Nat)
  symbolize : List Nat → List Nat → Except String (List Symbol × List Symbol)

/-- The per-entry body of the collector loop: unpack the key, look up
both stacks, symbolize them; an error at either step drops the entry
(`none`), otherwise a sample carrying the tick time and the count is
produced. -/
def tickSample (env : CollectorEnv) (t : Nat) (kc : Nat × Nat) : Option Sample :=
  let ids := unpackKey kc.1
  match env.lookup ids.1 ids.2 with
  | .error _ => none
  | .ok pcs =>
    match env.symbolize pcs.1 pcs.2 with
    | .error _ => none
    | .ok syms => some ⟨t, syms.1, syms.2, kc.2⟩

/-- Result of one collector tick: the tick was skipped (snapshot error),
or a batch was published on the samples channel, or the non-blocking
send dropped the batch because the consumer was not ready. -/
inductive TickResult where
  | skippedTick
  | published (batch : List Sample)
  | droppedBatch (batch : List Sample)
  deriving DecidableEq, Repr

/-- One tick of `Profiler.collector`: on snapshot error warn and skip;
otherwise assemble the batch entry by entry (errors skip only that
entry) and attempt the non-blocking send on the capacity-1 channel:
`consumerReady` says whether the channel has room. -/
def collectorTick (env : CollectorEnv) (t : Nat) (consumerReady : Bool) : TickResult :=
  match env.snapshot with
  | .error _ => .skippedTick
  | .ok counts =>
    let samples := counts.foldl
      (fun acc kc =>
        match tickSample env t kc with
        | none => acc
        | some s => acc ++ [s])
      []
    if consumerReady then .published samples else .droppedBatch samples

/-- One turn of the collector loop: exit on cancellation, otherwise
perform the tick and keep running (`some` result = loop continues). -/
def collectorStep (cancelled : Bool) (env : CollectorEnv) (t : Nat)
    (consumerReady : Bool) : Option TickResult :=
  if cancelled then none else some (collectorTick env t consumerReady)

/-! ## Kallsyms resolver (internal/symbolizer/kallsyms.go) -/

/-- One parsed `/proc/kallsyms` entry. -/
structure KallsymsEntry where
  addr : Nat
  name : String
  deriving DecidableEq, Repr

/-- Ordered insertion by address, realizing the contract of
`sort.Slice(entries, func(i, j) { return entries[i].addr < entries[j].addr })`
in `InitKallsymsResolver`. -/
def insertByAddr (e : KallsymsEntry) : List KallsymsEntry → List KallsymsEntry
  | [] => [e]
  | x :: xs => if e.addr < x.addr then e :: x :: xs else x :: insertByAddr e xs

/-- The ascending-by-address sort applied by `InitKallsymsResolver`. -/
def sortEntries : List KallsymsEntry → List KallsymsEntry
  | [] => []
  | x :: xs => insertByAddr x (sortEntries xs)

/-- `KallsymsResolver.Resolve`: error on an empty table; `sort.Search`
finds the least index whose address exceeds `pc` (on the sorted table it
equals the first such index, embedded as `List.findIdx`); index 0 means
`pc` is below every entry; otherwise the predecessor entry is returned
with offset `pc - addr` (no u64 wrap: that entry's address is `≤ pc`). -/
def kallsymsResolve (entries : List KallsymsEntry) (pc : Nat) : Except String Symbol :=
  if entries.length = 0 then .error "empty kallsyms table"
  else
    let i := entries.findIdx (fun e => pc < e.addr)
    if i = 0 then .error "no kernel symbol <= pc"
    else
      let entry := entries.getD (i - 1) ⟨0, ""⟩
      .ok ⟨entry.name, pc - entry.addr⟩

/-- Scanning helper used to reason about `kallsymsResolve`: the entry
just before the first address exceeding `pc`, starting from `best`. -/
def scanBest (pc : Nat) (best : KallsymsEntry) : List KallsymsEntry → KallsymsEntry
  | [] => best
  | e :: rest => if pc < e.addr then best else scanBest pc e rest

/-! ## Cascading symbol loader (internal/symbolizer/elf.go) -/

/-- The observations `CascadingSymbolLoader.LoadFrom` makes about an
opened ELF file: whether `.gopclntab` exists, whether
`readGoSymbolTable` succeeds, whether `ef.DWARF()` succeeds, and
whether `readElfSymbols` yields a non-empty `.symtab` ∪ `.dynsym`. -/
structure ElfInfo where
  hasGopclntab : Bool
  goSymTabOk : Bool
  hasDwarf : Bool
  hasElfSymbols : Bool
  deriving DecidableEq, Repr

/-- The resolver variant selected by the loader. -/
inductive Resolver where
  | goResolver
  | dwarfResolver
  | elfResolver
  deriving DecidableEq, Repr

/-- `CascadingSymbolLoader.LoadFrom`, control flow translated exactly:
the DWARF and ELF-symbol fallbacks are reachable only inside the
`pcln != nil` branch; when the file has no `.gopclntab` section the
function returns the `no symbol data available` error directly. -/
def LoadFrom (ef : ElfInfo) : Except String Resolver :=
  if ef.hasGopclntab then
    if ef.goSymTabOk then .ok .goResolver
    else if ef.hasDwarf then .ok .dwarfResolver
    else if ef.hasElfSymbols then .ok .elfResolver
    else .error "no symbol data available"
  else .error "no symbol data available"

/-! ## Slide computation (internal/symbolizer/elf.go and
internal/symbolizer/user_symbolizer.go, identical code) -/

/-- An ELF program header as `computeSlide` sees it: whether its type is
`PT_LOAD`, and its virtual address. -/
structure ProgHeader where
  isLoad : Bool
  vaddr : Nat
  deriving DecidableEq, Repr

/-- One iteration of the header loop of `computeSlide`:
`if prog.Type == PT_LOAD { if minVaddr == 0 || prog.Vaddr < minVaddr {
minVaddr = prog.Vaddr } }`. -/
def minVaddrStep (minVaddr : Nat) (p : ProgHeader) : Nat :=
  if p.isLoad then
    (if minVaddr = 0 ∨ p.vaddr < minVaddr then p.vaddr else minVaddr)
  else minVaddr

/-- The header loop of `computeSlide`, starting from
`var minVaddr uint64 = 0`. -/
def minVaddrFold (progs : List ProgHeader) : Nat :=
  progs.foldl minVaddrStep 0

/-- `computeSlide`: `slide = m.Start - minVaddr` (u64 subtraction) when
the tracked minimum ended nonzero, else 0. -/
def computeSlide (progs : List ProgHeader) (mStart : Nat) : Nat :=
  let minVaddr := minVaddrFold progs
  if minVaddr ≠ 0 then sub64 mStart minVaddr else 0

/-- The virtual addresses of the `PT_LOAD` headers, in file order. -/
def loadVaddrs (progs : List ProgHeader) : List Nat :=
  progs.filterMap (fun p => if p.isLoad then some p.vaddr else none)

/-! ## Folded-stack exporter (internal/exporter/flamegraph.go) -/

/-- Per-character map over a string (Go's `strings.ReplaceAll` with a
single-character pattern and replacement replaces exactly those
characters). -/
def mapChars (f : Char → Char) (s : String) : String := ⟨s.toList.map f⟩

/-- Go's `strings.TrimSpace` on the ASCII whitespace the profiler's
symbol names can contain: drop leading and trailing whitespace. -/
def trimChars (s : String) : String :=
  ⟨(((s.toList.dropWhile Char.isWhitespace).reverse).dropWhile Char.isWhitespace).reverse⟩

/-- Go's `strings.Join(elems, sep)`. -/
def joinWith (sep : String) : List String → String
  | [] => ""
  | s :: rest => rest.foldl (fun acc x => acc ++ sep ++ x) s

/-- `escapeFoldedName`: replace `;` with `_` and newline with space,
trim surrounding whitespace, and render a name that became empty as
`<unknown>`. -/
def escapeFoldedName (name : String) : String :=
  let n1 := mapChars (fun c => if c = ';' then '_' else c) name
  let n2 := mapChars (fun c => if c = '\n' then ' ' else c) n1
  let n3 := trimChars n2
  if n3 = "" then "<unknown>" else n3

/-- The folded key the `add` closure of `BuildFoldedStacks` builds for
one stack: iterate the frames from the last index down (root-first),
substitute `<unknown>` for empty names, escape, and join with `;`. -/
def foldedKey (stack : List Symbol) : String :=
  joinWith ";"
    ((stack.reverse).map
      (fun sym => escapeFoldedName (if sym.name = "" then "<unknown>" else sym.name)))

/-- `exporter.StackSelection`. -/
inductive StackSelection where
  | user
  | kernel
  | both
  deriving DecidableEq, Repr

/-- `agg[key] += count` on a Go `map[string]uint64`, modelled as an
association list keeping first-insertion order (u64 addition wraps). -/
def bumpAgg : List (String × Nat) → String → Nat → List (String × Nat)
  | [], key, c => [(key, (0 + c) % U64)]
  | (k, v) :: rest, key, c =>
    if k = key then (k, (v + c) % U64) :: rest else (k, v) :: bumpAgg rest key c

/-- The `add` closure of `BuildFoldedStacks`: empty stacks are skipped,
otherwise the stack's folded key is bumped by the sample count. -/
def addStack (agg : List (String × Nat)) (count : Nat) (stack : List Symbol) :
    List (String × Nat) :=
  if stack.length = 0 then agg else bumpAgg agg (foldedKey stack) count

/-- `exporter.BuildFoldedStacks`. -/
def BuildFoldedStacks (samples : List Sample) (which : StackSelection) :
    List (String × Nat) :=
  samples.foldl
    (fun agg s =>
      match which with
      | .user => addStack agg s.count s.userStack
      | .kernel => addStack agg s.count s.kernelStack
      | .both => addStack (addStack agg s.count s.userStack) s.count s.kernelStack)
    []

/-- The name-shaping rule exactly as the claim (and spec §6) words it:
`;` replaced by `_`, newlines by spaces, empty names rendered
`<unknown>` — with no trimming.  Stated from the claim's words, to be
compared against the source's `escapeFoldedName`. -/
def claimEscapeName (name : String) : String :=
  mapChars (fun c => if c = '\n' then ' ' else c)
    (mapChars (fun c => if c = ';' then '_' else c)
      (if name = "" then "<unknown>" else name))

/-- The folded key as the claim describes it, built from
`claimEscapeName`. -/
def claimFoldedKey (stack : List Symbol) : String :=
  joinWith ";" ((stack.reverse).map (fun sym => claimEscapeName sym.name))

end EbpfProfiler

namespace EbpfProfiler

/-! ## Theorems -/

theorem packKey_eq_mul_add {user kern : Nat} (hk : kern < U32) :
    packKey user kern = U32 * user + kern := by
  unfold packKey U32 at *
  rw [Nat.shiftLeft_eq, Nat.mul_comm user (2 ^ 32)]
  exact (Nat.mul_add_lt_is_or hk user).symm

theorem unpack_pack {user kern : Nat} (hu : user < U32) (hk : kern < U32) :
    unpackKey (packKey user kern) = (user, kern) := by
  rw [packKey_eq_mul_add hk]
  unfold unpackKey U32 at *
  have hmask : (0xffffffff : Nat) = 2 ^ 32 - 1 := by norm_num
  rw [Nat.shiftRight_eq_div_pow, hmask, Nat.and_pow_two_sub_one_eq_mod]
  have hdiv : (2 ^ 32 * user + kern) / 2 ^ 32 = user := by
    rw [Nat.mul_add_div (by norm_num : 0 < 2 ^ 32), Nat.div_eq_of_lt hk, Nat.add_zero]
  have hmod : (2 ^ 32 * user + kern) % 2 ^ 32 = kern := by
    rw [Nat.mul_add_mod]
    exact Nat.mod_eq_of_lt hk
  rw [hdiv, hmod, Nat.mod_eq_of_lt hu, Nat.mod_eq_of_lt hk]

end EbpfProfiler

/-- C1: packing two 32-bit ids as `(u << 32) | k` and unpacking with
`unpackKey` is the identity on `[0, 2^32) × [0, 2^32)`; in particular
`pack(7, 3) = 0x0000000700000003` and unpacking that value yields
`(7, 3)`. -/
theorem C1_pack_unpack_roundtrip :
    (∀ u k, u < EbpfProfiler.U32 → k < EbpfProfiler.U32 →
      EbpfProfiler.unpackKey (EbpfProfiler.packKey u k) = (u, k)) ∧
    EbpfProfiler.packKey 7 3 = 0x0000000700000003 ∧
    EbpfProfiler.unpackKey 0x0000000700000003 = (7, 3) := by
  refine ⟨fun u k hu hk => EbpfProfiler.unpack_pack hu hk, by decide, by decide⟩

/-- Witness for C1 at `u = 7`, `k = 3`. -/
theorem C1_pack_unpack_roundtrip_witness :
    EbpfProfiler.unpackKey (EbpfProfiler.packKey 7 3) = (7, 3) :=
  C1_pack_unpack_roundtrip.1 7 3 (by decide) (by decide)

namespace EbpfProfiler

theorem snapshot_foldl_eq (counts : List (Nat × List Nat)) (acc : List (Nat × Nat)) :
    counts.foldl
      (fun results kv =>
        if 0 < sum64 kv.2 then results ++ [(kv.1, sum64 kv.2)] else results)
      acc
    = acc ++ (counts.filter (fun kv => decide (0 < sum64 kv.2))).map
        (fun kv => (kv.1, sum64 kv.2)) := by
  induction counts generalizing acc with
  | nil => simp
  | cons kv rest ih =>
    simp only [List.foldl_cons, List.filter_cons]
    by_cases h : 0 < sum64 kv.2
    · rw [if_pos h, ih]
      simp [h]
    · rw [if_neg h]
      rw [ih]
      simp [h]

end EbpfProfiler

/-- C10: calling `Stop` on a backend that was never successfully started
(or whose `Start` failed, leaving the state unchanged) does not return a
not-started error: it closes the loaded BPF objects and returns `nil`,
leaving the `started` flag false and the perf-fd list empty. -/
theorem C10_stop_unstarted :
    (∀ env s, s.started = false →
        EbpfProfiler.ebpfStop env s = ({ s with objsClosed := true }, none)) ∧
    (∀ (env : EbpfProfiler.EbpfEnv) (s : EbpfProfiler.EbpfState),
        s.started = false → s.perfFDs = [] →
        (EbpfProfiler.ebpfStop env s).1.started = false ∧
        (EbpfProfiler.ebpfStop env s).1.perfFDs = [] ∧
        (EbpfProfiler.ebpfStop env s).1.objsClosed = true ∧
        (EbpfProfiler.ebpfStop env s).2 = none) ∧
    (∀ env s, s.started = false → env.attachOk = false →
        EbpfProfiler.ebpfStart env s = (s, some "perf_event_open")) := by
  refine ⟨?_, ?_, ?_⟩
  · intro env s hs
    simp [EbpfProfiler.ebpfStop, hs]
  · intro env s hs hfd
    simp [EbpfProfiler.ebpfStop, hs, hfd]
  · intro env s hs hok
    simp [EbpfProfiler.ebpfStart, hs, hok]

/-- Witness for C10: a fresh backend state with all close calls failing
still returns `nil` from `Stop`. -/
theorem C10_stop_unstarted_witness :
    EbpfProfiler.ebpfStop ⟨true, 2, true, true⟩ ⟨false, [], false⟩
      = (⟨false, [], true⟩, none) :=
  C10_stop_unstarted.1 ⟨true, 2, true, true⟩ ⟨false, [], false⟩ rfl

/-- C5: on a started backend, `LookupStacks` returns an empty sequence
for a side whose id is the sentinel `0xFFFFFFFF`; a non-sentinel id
whose stored frame array starts `a, b, 0, …` (with `a, b` nonzero)
yields exactly `[a, b]`; and a non-sentinel id missing from the stacks
map yields an empty sequence for that side with no error. -/
theorem C5_lookup_stacks :
    (∀ (s : EbpfProfiler.EbpfState) (m : Nat → Option (List Nat)) (k : Nat),
        s.started = true →
        ∃ kf, EbpfProfiler.lookupStacks s m EbpfProfiler.missingSentinel k = .ok ([], kf)) ∧
    (∀ (s : EbpfProfiler.EbpfState) (m : Nat → Option (List Nat)) (u : Nat),
        s.started = true →
        ∃ uf, EbpfProfiler.lookupStacks s m u EbpfProfiler.missingSentinel = .ok (uf, [])) ∧
    (∀ (s : EbpfProfiler.EbpfState) (m : Nat → Option (List Nat)) (u k a b : Nat)
        (rest : List Nat),
        s.started = true → u ≠ EbpfProfiler.missingSentinel →
        m u = some (a :: b :: 0 :: rest) → a ≠ 0 → b ≠ 0 →
        ∃ kf, EbpfProfiler.lookupStacks s m u k = .ok ([a, b], kf)) ∧
    (∀ (s : EbpfProfiler.EbpfState) (m : Nat → Option (List Nat)) (u k : Nat),
        s.started = true → u ≠ EbpfProfiler.missingSentinel → m u = none →
        ∃ kf, EbpfProfiler.lookupStacks s m u k = .ok ([], kf)) := by
  refine ⟨?_, ?_, ?_, ?_⟩
  · intro s m k hs
    refine ⟨EbpfProfiler.readFrames m k, ?_⟩
    simp [EbpfProfiler.lookupStacks, hs, EbpfProfiler.readFrames]
  · intro s m u hs
    refine ⟨EbpfProfiler.readFrames m u, ?_⟩
    simp [EbpfProfiler.lookupStacks, hs, EbpfProfiler.readFrames]
  · intro s m u k a b rest hs hu hm ha hb
    refine ⟨EbpfProfiler.readFrames m k, ?_⟩
    simp [EbpfProfiler.lookupStacks, hs, EbpfProfiler.readFrames,
      EbpfProfiler.trimZeros, hu, hm, ha, hb]
  · intro s m u k hs hu hm
    refine ⟨EbpfProfiler.readFrames m k, ?_⟩
    simp [EbpfProfiler.lookupStacks, hs, EbpfProfiler.readFrames, hu, hm]

/-- Witness for C5: stored entry `[5, 6, 0, 9]` for id 7 is trimmed to
`[5, 6]`. -/
theorem C5_lookup_stacks_witness :
    ∃ kf, EbpfProfiler.lookupStacks ⟨true, [], false⟩
      (fun id => if id = 7 then some [5, 6, 0, 9] else none) 7 3 = .ok ([5, 6], kf) :=
  C5_lookup_stacks.2.2.1 ⟨true, [], false⟩
    (fun id => if id = 7 then some [5, 6, 0, 9] else none) 7 3 5 6 [9]
    rfl (by decide) (by simp) (by decide) (by decide)

/-- C6: `SnapshotCounts` on a started backend returns, for each key, the
(u64) sum of that key's per-CPU slots, omits every key whose sum is zero
(so all returned counts are ≥ 1), and when the backend is not started it
fails with a not-started error. -/
theorem C6_snapshot_counts :
    (∀ s counts, s.started = false →
        EbpfProfiler.snapshotCounts s counts = .error "profiler not started") ∧
    (∀ (s : EbpfProfiler.EbpfState) (counts : List (Nat × List Nat))
        (res : List (Nat × Nat)),
        EbpfProfiler.snapshotCounts s counts = .ok res →
        (∀ x, x ∈ res →
          (∃ kv, kv ∈ counts ∧ x = (kv.1, EbpfProfiler.sum64 kv.2)) ∧ 1 ≤ x.2) ∧
        (∀ kv, kv ∈ counts → 0 < EbpfProfiler.sum64 kv.2 →
          (kv.1, EbpfProfiler.sum64 kv.2) ∈ res) ∧
        ((counts.map Prod.fst).Nodup →
          ∀ kv, kv ∈ counts → EbpfProfiler.sum64 kv.2 = 0 →
          ∀ v, (kv.1, v) ∉ res)) := by
  constructor
  · intro s counts hs
    simp [EbpfProfiler.snapshotCounts, hs]
  · intro s counts res hok
    unfold EbpfProfiler.snapshotCounts at hok
    by_cases hs : s.started = false
    · simp [hs] at hok
    · rw [if_neg hs] at hok
      have hres := Except.ok.inj hok
      rw [EbpfProfiler.snapshot_foldl_eq, List.nil_append] at hres
      subst hres
      refine ⟨?_, ?_, ?_⟩
      · intro x hx
        simp only [List.mem_map, List.mem_filter, decide_eq_true_eq] at hx
        obtain ⟨kv, ⟨hmem, hpos⟩, hxeq⟩ := hx
        exact ⟨⟨kv, hmem, hxeq.symm⟩, by rw [← hxeq]; exact hpos⟩
      · intro kv hmem hpos
        simp only [List.mem_map, List.mem_filter, decide_eq_true_eq]
        exact ⟨kv, ⟨hmem, hpos⟩, rfl⟩
      · intro hnd kv hmem hzero v hv
        simp only [List.mem_map, List.mem_filter, decide_eq_true_eq] at hv
        obtain ⟨kv', ⟨hmem', hpos⟩, hxeq⟩ := hv
        have hfst : kv'.1 = kv.1 := by
          rw [Prod.ext_iff] at hxeq
          exact hxeq.1
        have hkk : kv' = kv := List.inj_on_of_nodup_map hnd hmem' hmem hfst
        rw [hkk, hzero] at hpos
        exact Nat.lt_irrefl 0 hpos

/-- Witness for C6: counts `{5 ↦ [2,3], 9 ↦ [0,0]}` snapshot to
`[(5,5)]`, and the zero-sum key 9 is absent. -/
theorem C6_snapshot_counts_witness :
    ((9 : Nat), (0 : Nat)) ∉ ([((5 : Nat), (5 : Nat))] : List (Nat × Nat)) := by
  have h := C6_snapshot_counts.2 ⟨true, [], false⟩ [(5, [2, 3]), (9, [0, 0])]
    [(5, 5)] rfl
  exact h.2.2 (by decide) (9, [0, 0]) (by simp) (by decide) 0

namespace EbpfProfiler

theorem profilerStop_chClosed (env : EbpfEnv) (p : ProfilerState) (e : EbpfState)
    (h : p.chClosed = true) :
    profilerStop env p e = .error "close of closed channel" := by
  unfold profilerStop
  rcases hbe : ebpfStop env e with ⟨e1, be⟩
  simp [h]

theorem tick_foldl_eq (env : CollectorEnv) (t : Nat) (counts : List (Nat × Nat))
    (acc : List Sample) :
    counts.foldl
      (fun acc kc =>
        match tickSample env t kc with
        | none => acc
        | some s => acc ++ [s])
      acc
    = acc ++ counts.filterMap (tickSample env t) := by
  induction counts generalizing acc with
  | nil => simp
  | cons kc rest ih =>
    simp only [List.foldl_cons, List.filterMap_cons]
    cases h : tickSample env t kc with
    | none => exact ih acc
    | some s =>
      show List.foldl _ (acc ++ [s]) rest
        = acc ++ (s :: List.filterMap (tickSample env t) rest)
      rw [ih]
      simp

end EbpfProfiler

/-- C4 counterexample: from a fresh profiler, `Start` succeeds, a first
`Stop` succeeds, and the second `Stop` call panics closing the
already-closed samples channel (modelled as the `Except.error` result),
refuting that every further `Stop` is an error-free no-op. -/
theorem C4_stop_counterexample :
    EbpfProfiler.profilerStart ⟨true, 1, false, false⟩ ⟨false, false, false, false⟩
        ⟨false, [], false⟩
      = ((⟨true, false, true, false⟩, ⟨true, [0], false⟩), none) ∧
    EbpfProfiler.profilerStop ⟨true, 1, false, false⟩ ⟨true, false, true, false⟩
        ⟨true, [0], false⟩
      = .ok (⟨false, true, false, true⟩, ⟨false, [], true⟩, none) ∧
    EbpfProfiler.profilerStop ⟨true, 1, false, false⟩ ⟨false, true, false, true⟩
        ⟨false, [], true⟩
      = .error "close of closed channel" :=
  ⟨rfl, rfl, rfl⟩

/-- C4 (amended): after any `Stop` that returns normally — in particular
the first one after a successful `Start` — a further `Stop` call is not
a no-op: it panics on `close(p.samplesCh)`, the samples channel having
already been closed. -/
theorem C4_second_stop_panics :
    ∀ (env : EbpfProfiler.EbpfEnv) (p p' : EbpfProfiler.ProfilerState)
      (e e' : EbpfProfiler.EbpfState) (r : Option String),
      EbpfProfiler.profilerStop env p e = .ok (p', e', r) →
      EbpfProfiler.profilerStop env p' e' = .error "close of closed channel" := by
  intro env p p' e e' r h
  unfold EbpfProfiler.profilerStop at h
  rcases hbe : EbpfProfiler.ebpfStop env e with ⟨e1, be⟩
  rw [hbe] at h
  dsimp only at h
  by_cases hc : p.chClosed = true
  · rw [if_pos hc] at h
    exact absurd h (by simp)
  · rw [if_neg hc] at h
    have h1 := Except.ok.inj h
    have h2 := congrArg (fun q : EbpfProfiler.ProfilerState × EbpfProfiler.EbpfState × Option String => q.1.chClosed) h1
    exact EbpfProfiler.profilerStop_chClosed env p' e' h2.symm

/-- Witness for C4 (amended), at the concrete first-stop result of the
counterexample run. -/
theorem C4_second_stop_panics_witness :
    EbpfProfiler.profilerStop ⟨true, 1, false, false⟩ ⟨false, true, false, true⟩
      ⟨false, [], true⟩ = .error "close of closed channel" :=
  C4_second_stop_panics ⟨true, 1, false, false⟩ ⟨true, false, true, false⟩
    ⟨false, true, false, true⟩ ⟨true, [0], false⟩ ⟨false, [], true⟩ none rfl

/-- C2: `CascadingSymbolLoader.LoadFrom` evaluated at ELF files that
have no `.gopclntab` section but do have DWARF data and/or non-empty
ELF symbol tables: the loader fails with `no symbol data available`
instead of cascading to the DWARF or ELF resolver (the fallbacks are
nested inside the `.gopclntab != nil` branch and unreachable
otherwise, contradicting the code's own fallback log messages). -/
theorem C2_cascade_requires_gopclntab :
    EbpfProfiler.LoadFrom ⟨false, false, true, true⟩ = .error "no symbol data available" ∧
    EbpfProfiler.LoadFrom ⟨false, false, true, false⟩ = .error "no symbol data available" ∧
    EbpfProfiler.LoadFrom ⟨false, false, false, true⟩ = .error "no symbol data available" ∧
    EbpfProfiler.LoadFrom ⟨true, false, true, false⟩ = .ok .dwarfResolver ∧
    EbpfProfiler.LoadFrom ⟨true, false, false, true⟩ = .ok .elfResolver :=
  ⟨rfl, rfl, rfl, rfl, rfl⟩

/-- C8: on a collector tick (with cancellation not signalled), a
snapshot error skips the whole tick without publishing and without
terminating the loop; otherwise the batch contains exactly the entries
whose lookup and symbolization succeed (a per-entry error omits only
that entry); and the assembled batch is published when the consumer is
ready and dropped otherwise — the send never blocks. -/
theorem C8_collector_tick :
    (∀ (env : EbpfProfiler.CollectorEnv) (t : Nat) (ready : Bool) (msg : String),
        env.snapshot = .error msg →
        EbpfProfiler.collectorStep false env t ready = some .skippedTick) ∧
    (∀ (env : EbpfProfiler.CollectorEnv) (t : Nat) (counts : List (Nat × Nat)),
        env.snapshot = .ok counts →
        EbpfProfiler.collectorStep false env t true
          = some (.published (counts.filterMap (EbpfProfiler.tickSample env t)))) ∧
    (∀ (env : EbpfProfiler.CollectorEnv) (t : Nat) (counts : List (Nat × Nat)),
        env.snapshot = .ok counts →
        EbpfProfiler.collectorStep false env t false
          = some (.droppedBatch (counts.filterMap (EbpfProfiler.tickSample env t)))) ∧
    (∀ (env : EbpfProfiler.CollectorEnv) (t : Nat) (kc : Nat × Nat) (msg : String),
        env.lookup (EbpfProfiler.unpackKey kc.1).1 (EbpfProfiler.unpackKey kc.1).2
          = .error msg →
        EbpfProfiler.tickSample env t kc = none) ∧
    (∀ (env : EbpfProfiler.CollectorEnv) (t : Nat) (kc : Nat × Nat)
        (upcs kpcs : List Nat) (msg : String),
        env.lookup (EbpfProfiler.unpackKey kc.1).1 (EbpfProfiler.unpackKey kc.1).2
          = .ok (upcs, kpcs) →
        env.symbolize upcs kpcs = .error msg →
        EbpfProfiler.tickSample env t kc = none) ∧
    (∀ (env : EbpfProfiler.CollectorEnv) (t : Nat) (kc : Nat × Nat)
        (upcs kpcs : List Nat) (us ks : List EbpfProfiler.Symbol),
        env.lookup (EbpfProfiler.unpackKey kc.1).1 (EbpfProfiler.unpackKey kc.1).2
          = .ok (upcs, kpcs) →
        env.symbolize upcs kpcs = .ok (us, ks) →
        EbpfProfiler.tickSample env t kc = some ⟨t, us, ks, kc.2⟩) := by
  refine ⟨?_, ?_, ?_, ?_, ?_, ?_⟩
  · intro env t ready msg h
    simp [EbpfProfiler.collectorStep, EbpfProfiler.collectorTick, h]
  · intro env t counts h
    simp [EbpfProfiler.collectorStep, EbpfProfiler.collectorTick, h,
      EbpfProfiler.tick_foldl_eq]
  · intro env t counts h
    simp [EbpfProfiler.collectorStep, EbpfProfiler.collectorTick, h,
      EbpfProfiler.tick_foldl_eq]
  · intro env t kc msg h
    simp [EbpfProfiler.tickSample, h]
  · intro env t kc upcs kpcs msg h1 h2
    simp [EbpfProfiler.tickSample, h1, h2]
  · intro env t kc upcs kpcs us ks h1 h2
    simp [EbpfProfiler.tickSample, h1, h2]

/-- Witness for C8: one concrete tick over counts `{pack(7,3) ↦ 42}`
publishes a single sample with count 42. -/
theorem C8_collector_tick_witness :
    EbpfProfiler.collectorStep false
      ⟨.ok [(EbpfProfiler.packKey 7 3, 42)],
       fun u k => if u = 7 ∧ k = 3 then .ok ([0x1000, 0x2000], []) else .error "stack not found",
       fun ups kps => .ok (ups.map (fun pc => ⟨"f", pc⟩), kps.map (fun pc => ⟨"k", pc⟩))⟩
      5 true
      = some (.published [⟨5, [⟨"f", 0x1000⟩, ⟨"f", 0x2000⟩], [], 42⟩]) := by
  have h := C8_collector_tick.2.1
    ⟨.ok [(EbpfProfiler.packKey 7 3, 42)],
     fun u k => if u = 7 ∧ k = 3 then .ok ([0x1000, 0x2000], []) else .error "stack not found",
     fun ups kps => .ok (ups.map (fun pc => ⟨"f", pc⟩), kps.map (fun pc => ⟨"k", pc⟩))⟩
    5 [(EbpfProfiler.packKey 7 3, 42)] rfl
  rw [h]
  rfl

namespace EbpfProfiler

theorem scanBest_eq_getD (l : List KallsymsEntry) (pc : Nat) :
    ∀ best : KallsymsEntry,
      scanBest pc best l
        = (best :: l).getD (l.findIdx (fun e => pc < e.addr)) ⟨0, ""⟩ := by
  induction l with
  | nil => intro best; simp [scanBest]
  | cons e rest ih =>
    intro best
    by_cases h : pc < e.addr
    · simp [scanBest, h, List.findIdx_cons]
    · have hd : decide (pc < e.addr) = false := by simp [h]
      simp only [scanBest, if_neg h, List.findIdx_cons, hd, cond_false,
        List.getD_cons_succ]
      exact ih e

theorem kallsymsResolve_cons (e : KallsymsEntry) (rest : List KallsymsEntry) (pc : Nat) :
    kallsymsResolve (e :: rest) pc
      = if pc < e.addr then .error "no kernel symbol <= pc"
        else .ok ⟨(scanBest pc e rest).name, pc - (scanBest pc e rest).addr⟩ := by
  by_cases h : pc < e.addr
  · simp [kallsymsResolve, h, List.findIdx_cons]
  · have hd : decide (pc < e.addr) = false := by simp [h]
    simp [kallsymsResolve, List.findIdx_cons, hd, h, scanBest_eq_getD]

theorem scanBest_glb (l : List KallsymsEntry) (pc : Nat) :
    ∀ best : KallsymsEntry, best.addr ≤ pc →
      List.Pairwise (fun a b : KallsymsEntry => a.addr ≤ b.addr) (best :: l) →
      scanBest pc best l ∈ best :: l ∧ (scanBest pc best l).addr ≤ pc ∧
        ∀ e ∈ best :: l, e.addr ≤ pc → e.addr ≤ (scanBest pc best l).addr := by
  induction l with
  | nil =>
    intro best hbest _
    refine ⟨List.mem_singleton_self best, hbest, ?_⟩
    intro e he _
    rw [List.mem_singleton.mp he]
    exact Nat.le_refl _
  | cons x rest ih =>
    intro best hbest hsort
    obtain ⟨hbx, hsort'⟩ := List.pairwise_cons.mp hsort
    by_cases h : pc < x.addr
    · rw [show scanBest pc best (x :: rest) = best by simp [scanBest, h]]
      refine ⟨List.mem_cons_self best _, hbest, ?_⟩
      intro e he hle
      rcases List.mem_cons.mp he with he | he
      · rw [he]
      · have hxe : x.addr ≤ e.addr := by
          rcases List.mem_cons.mp he with he' | he'
          · rw [he']
          · exact (List.pairwise_cons.mp hsort').1 e he'
        exact absurd (Nat.lt_of_lt_of_le h hxe) (Nat.not_lt.mpr hle)
    · have hx : x.addr ≤ pc := Nat.not_lt.mp h
      rw [show scanBest pc best (x :: rest) = scanBest pc x rest by
        simp [scanBest, h]]
      obtain ⟨hmem, haddr, hmax⟩ := ih x hx hsort'
      refine ⟨List.mem_cons_of_mem best hmem, haddr, ?_⟩
      intro e he hle
      rcases List.mem_cons.mp he with he | he
      · calc e.addr ≤ x.addr := by
              rw [he]; exact hbx x (List.mem_cons_self x rest)
          _ ≤ (scanBest pc x rest).addr :=
              hmax x (List.mem_cons_self x rest) hx
      · exact hmax e he hle

end EbpfProfiler

/-- C7: on a sorted non-empty table, `Resolve(pc)` with `pc` at or above
the smallest address returns the entry with the greatest address `≤ pc`
and offset `pc - addr`; the empty table gives the empty-table error;
`pc` strictly below the first entry gives the below-range error; and on
the example table (after sorting) `Resolve(0xffffffff81001010)` is
`("do_one", 0x10)` while `Resolve(0xffffffff80fffeff)` fails. -/
theorem C7_kallsyms_resolve :
    (∀ pc, EbpfProfiler.kallsymsResolve [] pc = .error "empty kallsyms table") ∧
    (∀ (e : EbpfProfiler.KallsymsEntry) (rest : List EbpfProfiler.KallsymsEntry)
        (pc : Nat), pc < e.addr →
        EbpfProfiler.kallsymsResolve (e :: rest) pc = .error "no kernel symbol <= pc") ∧
    (∀ (e : EbpfProfiler.KallsymsEntry) (rest : List EbpfProfiler.KallsymsEntry)
        (pc : Nat),
        List.Pairwise (fun a b : EbpfProfiler.KallsymsEntry => a.addr ≤ b.addr)
          (e :: rest) →
        e.addr ≤ pc →
        ∃ b, b ∈ e :: rest ∧
          EbpfProfiler.kallsymsResolve (e :: rest) pc = .ok ⟨b.name, pc - b.addr⟩ ∧
          b.addr ≤ pc ∧ ∀ x ∈ e :: rest, x.addr ≤ pc → x.addr ≤ b.addr) ∧
    (EbpfProfiler.kallsymsResolve
        (EbpfProfiler.sortEntries
          [⟨0xffffffff81001000, "do_one"⟩, ⟨0xffffffff81000000, "start_kernel"⟩,
           ⟨0xffffffff81002000, "do_two"⟩]) 0xffffffff81001010
      = .ok ⟨"do_one", 0x10⟩) ∧
    (EbpfProfiler.kallsymsResolve
        (EbpfProfiler.sortEntries
          [⟨0xffffffff81001000, "do_one"⟩, ⟨0xffffffff81000000, "start_kernel"⟩,
           ⟨0xffffffff81002000, "do_two"⟩]) 0xffffffff80fffeff
      = .error "no kernel symbol <= pc") := by
  refine ⟨?_, ?_, ?_, rfl, rfl⟩
  · intro pc
    simp [EbpfProfiler.kallsymsResolve]
  · intro e rest pc h
    rw [EbpfProfiler.kallsymsResolve_cons, if_pos h]
  · intro e rest pc hsort hle
    obtain ⟨hmem, haddr, hmax⟩ := EbpfProfiler.scanBest_glb rest pc e hle hsort
    refine ⟨EbpfProfiler.scanBest pc e rest, hmem, ?_, haddr, hmax⟩
    rw [EbpfProfiler.kallsymsResolve_cons, if_neg (Nat.not_lt.mpr hle)]

/-- Witness for C7's greatest-lower-bound property on a concrete sorted
two-entry table. -/
theorem C7_kallsyms_resolve_witness :
    ∃ b, b ∈ ([⟨0x1000, "alpha"⟩, ⟨0x2000, "beta"⟩] :
          List EbpfProfiler.KallsymsEntry) ∧
      EbpfProfiler.kallsymsResolve
        [⟨0x1000, "alpha"⟩, ⟨0x2000, "beta"⟩] 0x1500 = .ok ⟨b.name, 0x1500 - b.addr⟩ ∧
      b.addr ≤ 0x1500 ∧
      ∀ x ∈ ([⟨0x1000, "alpha"⟩, ⟨0x2000, "beta"⟩] :
          List EbpfProfiler.KallsymsEntry), x.addr ≤ 0x1500 → x.addr ≤ b.addr :=
  C7_kallsyms_resolve.2.2.1 ⟨0x1000, "alpha"⟩ [⟨0x2000, "beta"⟩] 0x1500
    (by simp) (by decide)

namespace EbpfProfiler

theorem sub64_eq (a b : Nat) (hb : b ≤ a) (ha : a < U64) : sub64 a b = a - b := by
  unfold sub64 U64 at *
  have h64 : (2 : Nat) ^ 64 = 18446744073709551616 := by norm_num
  rw [h64] at *
  omega

theorem loadVaddrs_cons_load {p : ProgHeader} (hp : p.isLoad = true)
    (l : List ProgHeader) : loadVaddrs (p :: l) = p.vaddr :: loadVaddrs l := by
  unfold loadVaddrs
  rw [List.filterMap_cons, if_pos hp]

theorem loadVaddrs_cons_skip {p : ProgHeader} (hp : ¬ p.isLoad = true)
    (l : List ProgHeader) : loadVaddrs (p :: l) = loadVaddrs l := by
  unfold loadVaddrs
  rw [List.filterMap_cons, if_neg hp]

theorem minVaddrStep_load {p : ProgHeader} {mv : Nat} (hp : p.isLoad = true)
    (hmv : mv ≠ 0) : minVaddrStep mv p = min mv p.vaddr := by
  unfold minVaddrStep
  rw [if_pos hp]
  rcases Nat.lt_or_ge p.vaddr mv with hlt | hge
  · rw [if_pos (Or.inr hlt), Nat.min_def, if_neg (Nat.not_le.mpr hlt)]
  · rw [if_neg (fun hor => hor.elim hmv
      (fun hlt => absurd hlt (Nat.not_lt.mpr hge))), Nat.min_def, if_pos hge]

theorem minVaddrStep_load_zero {p : ProgHeader} (hp : p.isLoad = true) :
    minVaddrStep 0 p = p.vaddr := by
  unfold minVaddrStep
  rw [if_pos hp, if_pos (Or.inl rfl)]

theorem minVaddrStep_skip {p : ProgHeader} (hp : ¬ p.isLoad = true) (mv : Nat) :
    minVaddrStep mv p = mv := by
  unfold minVaddrStep
  rw [if_neg hp]

theorem minVaddr_fold_nonzero (l : List ProgHeader) :
    ∀ mv : Nat, mv ≠ 0 → (∀ p ∈ l, p.isLoad = true → p.vaddr ≠ 0) →
      l.foldl minVaddrStep mv = (loadVaddrs l).foldl min mv := by
  induction l with
  | nil => intro mv _ _; simp [loadVaddrs]
  | cons p rest ih =>
    intro mv hmv hall
    by_cases hp : p.isLoad
    · have hv : p.vaddr ≠ 0 := hall p (List.mem_cons_self p rest) hp
      have hmin : min mv p.vaddr ≠ 0 := by
        have := lt_min_iff.mpr ⟨Nat.pos_of_ne_zero hmv, Nat.pos_of_ne_zero hv⟩
        exact Nat.pos_iff_ne_zero.mp this
      rw [List.foldl_cons, minVaddrStep_load hp hmv, loadVaddrs_cons_load hp,
        List.foldl_cons]
      exact ih (min mv p.vaddr) hmin
        (fun q hq hq2 => hall q (List.mem_cons_of_mem p hq) hq2)
    · rw [List.foldl_cons, minVaddrStep_skip hp, loadVaddrs_cons_skip hp]
      exact ih mv hmv (fun q hq hq2 => hall q (List.mem_cons_of_mem p hq) hq2)

theorem minVaddrFold_eq (l : List ProgHeader)
    (hall : ∀ p ∈ l, p.isLoad = true → p.vaddr ≠ 0) :
    minVaddrFold l
      = match loadVaddrs l with
        | [] => 0
        | v :: vs => vs.foldl min v := by
  induction l with
  | nil => simp [minVaddrFold, loadVaddrs]
  | cons p rest ih =>
    by_cases hp : p.isLoad
    · have hv : p.vaddr ≠ 0 := hall p (List.mem_cons_self p rest) hp
      unfold minVaddrFold
      rw [List.foldl_cons, minVaddrStep_load_zero hp,
        minVaddr_fold_nonzero rest p.vaddr hv
          (fun q hq hq2 => hall q (List.mem_cons_of_mem p hq) hq2),
        loadVaddrs_cons_load hp]
    · unfold minVaddrFold
      rw [List.foldl_cons, minVaddrStep_skip hp, loadVaddrs_cons_skip hp]
      exact ih (fun q hq hq2 => hall q (List.mem_cons_of_mem p hq) hq2)

theorem foldl_min_mem_le (vs : List Nat) :
    ∀ v : Nat, (vs.foldl min v ∈ v :: vs) ∧ ∀ x ∈ v :: vs, vs.foldl min v ≤ x := by
  induction vs with
  | nil =>
    intro v
    refine ⟨by simp, ?_⟩
    intro x hx
    rw [List.mem_singleton.mp hx]
    exact Nat.le_refl _
  | cons w ws ih =>
    intro v
    simp only [List.foldl_cons]
    obtain ⟨hmem, hle⟩ := ih (min v w)
    constructor
    · rcases List.mem_cons.mp hmem with h | h
      · rcases min_choice v w with h2 | h2
        · rw [h, h2]; exact List.mem_cons_self v (w :: ws)
        · rw [h, h2]
          exact List.mem_cons_of_mem v (List.mem_cons_self w ws)
      · exact List.mem_cons_of_mem v (List.mem_cons_of_mem w h)
    · intro x hx
      have hminv : ws.foldl min (min v w) ≤ min v w :=
        hle (min v w) (List.mem_cons_self _ ws)
      rcases List.mem_cons.mp hx with h | h
      · rw [h]; exact Nat.le_trans hminv (Nat.min_le_left v w)
      · rcases List.mem_cons.mp h with h2 | h2
        · rw [h2]; exact Nat.le_trans hminv (Nat.min_le_right v w)
        · exact hle x (List.mem_cons_of_mem _ h2)

end EbpfProfiler

/-- C3 counterexample: a single `PT_LOAD` header with virtual address 0
(the common PIE layout) makes `computeSlide` return 0, not
`region.Start - 0 = region.Start`: the 0-initialized running minimum
treats a vaddr of 0 as "no PT_LOAD seen". -/
theorem C3_computeSlide_counterexample :
    EbpfProfiler.computeSlide [⟨true, 0⟩] 4096 = 0 ∧
    EbpfProfiler.computeSlide [⟨true, 0⟩] 4096 ≠ 4096 :=
  ⟨rfl, by decide⟩

/-- C3 (amended): `computeSlide` returns 0 when there is no `PT_LOAD`
header; when every `PT_LOAD` virtual address is nonzero it returns
`region.Start` minus the smallest `PT_LOAD` virtual address (no u64
wrap when that minimum is `≤ region.Start`); but a `PT_LOAD` with
virtual address 0 is conflated with the "unset" sentinel of the running
minimum — in particular a file whose only `PT_LOAD` is at vaddr 0
yields slide 0, not `region.Start`. -/
theorem C3_computeSlide_amended :
    (∀ (progs : List EbpfProfiler.ProgHeader) (mStart : Nat),
        EbpfProfiler.loadVaddrs progs = [] →
        EbpfProfiler.computeSlide progs mStart = 0) ∧
    (∀ (progs : List EbpfProfiler.ProgHeader) (mStart : Nat),
        (∀ p ∈ progs, p.isLoad = true → p.vaddr ≠ 0) →
        EbpfProfiler.loadVaddrs progs ≠ [] →
        mStart < EbpfProfiler.U64 →
        ∃ m, m ∈ EbpfProfiler.loadVaddrs progs ∧
          (∀ v ∈ EbpfProfiler.loadVaddrs progs, m ≤ v) ∧
          (m ≤ mStart → EbpfProfiler.computeSlide progs mStart = mStart - m)) ∧
    (∀ mStart, EbpfProfiler.computeSlide [⟨true, 0⟩] mStart = 0) := by
  refine ⟨?_, ?_, fun mStart => rfl⟩
  · intro progs mStart hempty
    have hnl : ∀ p ∈ progs, p.isLoad ≠ true := by
      intro p hp hl
      have hm : p.vaddr ∈ EbpfProfiler.loadVaddrs progs := by
        rw [EbpfProfiler.loadVaddrs, List.mem_filterMap]
        exact ⟨p, hp, by rw [if_pos hl]⟩
      rw [hempty] at hm
      exact absurd hm (List.not_mem_nil _)
    unfold EbpfProfiler.computeSlide
    rw [EbpfProfiler.minVaddrFold_eq progs (fun p hp hl => absurd hl (hnl p hp)), hempty]
    simp
  · intro progs mStart hall hne hlt
    obtain ⟨v, vs, hvv⟩ := List.exists_cons_of_ne_nil hne
    have hfold := EbpfProfiler.minVaddrFold_eq progs hall
    rw [hvv] at hfold
    obtain ⟨hmem, hle⟩ := EbpfProfiler.foldl_min_mem_le vs v
    refine ⟨vs.foldl min v, by rw [hvv]; exact hmem, by rw [hvv]; exact hle, ?_⟩
    intro hms
    have hm0 : vs.foldl min v ≠ 0 := by
      have hmem' : vs.foldl min v ∈ EbpfProfiler.loadVaddrs progs := by
        rw [hvv]; exact hmem
      rw [EbpfProfiler.loadVaddrs, List.mem_filterMap] at hmem'
      obtain ⟨p, hp, hpv⟩ := hmem'
      by_cases hl : p.isLoad
      · rw [if_pos hl] at hpv
        have := hall p hp hl
        rw [Option.some.injEq] at hpv
        rw [← hpv]
        exact this
      · rw [if_neg hl] at hpv
        exact absurd hpv (Option.noConfusion)
    unfold EbpfProfiler.computeSlide
    rw [hfold, if_pos hm0]
    exact EbpfProfiler.sub64_eq mStart (vs.foldl min v) hms hlt

/-- Witness for C3 (amended) on a file with PT_LOAD vaddrs
`{0x400000, 0x600000}`. -/
theorem C3_computeSlide_amended_witness :
    ∃ m, m ∈ EbpfProfiler.loadVaddrs
        [⟨false, 0⟩, ⟨true, 0x400000⟩, ⟨true, 0x600000⟩] ∧
      (∀ v ∈ EbpfProfiler.loadVaddrs
        [⟨false, 0⟩, ⟨true, 0x400000⟩, ⟨true, 0x600000⟩], m ≤ v) ∧
      (m ≤ 0x7f0000000000 →
        EbpfProfiler.computeSlide
          [⟨false, 0⟩, ⟨true, 0x400000⟩, ⟨true, 0x600000⟩] 0x7f0000000000
        = 0x7f0000000000 - m) :=
  C3_computeSlide_amended.2.1 [⟨false, 0⟩, ⟨true, 0x400000⟩, ⟨true, 0x600000⟩]
    0x7f0000000000 (by decide) (by decide) (by decide)

/-- C9 counterexample: the frame name `" x "` is trimmed by the source's
`escapeFoldedName` (via `strings.TrimSpace`), so the aggregation key is
`"x"`, while the claim's rule (replace `;`, replace newline, map empty
to `<unknown>`, no trimming) yields `" x "`. -/
theorem C9_folded_counterexample :
    EbpfProfiler.BuildFoldedStacks [⟨0, [⟨" x ", 0⟩], [], 1⟩] .user = [("x", 1)] ∧
    EbpfProfiler.claimFoldedKey [(⟨" x ", 0⟩ : EbpfProfiler.Symbol)] = " x " ∧
    EbpfProfiler.BuildFoldedStacks [⟨0, [⟨" x ", 0⟩], [], 1⟩] .user
      ≠ [(EbpfProfiler.claimFoldedKey [(⟨" x ", 0⟩ : EbpfProfiler.Symbol)], 1)] :=
  ⟨rfl, rfl, by decide⟩

/-- C9 (amended): `BuildFoldedStacks` aggregates each selected non-empty
stack under the key obtained by reversing to root-first order and
joining with `;` the names shaped by the claim's rule (`;`→`_`,
newline→space, empty→`<unknown>`) **followed by trimming surrounding
whitespace, with a name that trims to empty rendered `<unknown>`**; the
claim's literal example holds: `[Sym("Leaf;Name"), Sym("Root\nName")]`
with count 1 aggregates under `"Root Name;Leaf_Name" ↦ 1`. -/
theorem C9_folded_stacks_amended :
    (∀ name : String,
        EbpfProfiler.escapeFoldedName (if name = "" then "<unknown>" else name)
          = (if EbpfProfiler.trimChars (EbpfProfiler.claimEscapeName name) = ""
             then "<unknown>"
             else EbpfProfiler.trimChars (EbpfProfiler.claimEscapeName name))) ∧
    (∀ stack : List EbpfProfiler.Symbol,
        EbpfProfiler.foldedKey stack
          = EbpfProfiler.joinWith ";"
              ((stack.reverse).map (fun sym =>
                if EbpfProfiler.trimChars (EbpfProfiler.claimEscapeName sym.name) = ""
                then "<unknown>"
                else EbpfProfiler.trimChars (EbpfProfiler.claimEscapeName sym.name)))) ∧
    (∀ s : EbpfProfiler.Sample, s.userStack ≠ [] →
        EbpfProfiler.BuildFoldedStacks [s] .user
          = [(EbpfProfiler.foldedKey s.userStack, s.count % EbpfProfiler.U64)]) ∧
    (EbpfProfiler.BuildFoldedStacks
        [⟨0, [⟨"Leaf;Name", 0⟩, ⟨"Root\nName", 0⟩], [], 1⟩] .user
      = [("Root Name;Leaf_Name", 1)]) := by
  refine ⟨fun name => rfl, fun stack => rfl, ?_, rfl⟩
  intro s hne
  have hlen : ¬ s.userStack.length = 0 := by
    intro h
    exact hne (List.length_eq_zero.mp h)
  simp [EbpfProfiler.BuildFoldedStacks, EbpfProfiler.addStack,
    EbpfProfiler.bumpAgg, hlen, hne]

/-- Witness for C9 (amended): a one-frame stack aggregates under its
folded key with its count. -/
theorem C9_folded_stacks_amended_witness :
    EbpfProfiler.BuildFoldedStacks [⟨7, [⟨"main", 0⟩], [], 3⟩] .user
      = [(EbpfProfiler.foldedKey [⟨"main", 0⟩], 3 % EbpfProfiler.U64)] :=
  C9_folded_stacks_amended.2.2.1 ⟨7, [⟨"main", 0⟩], [], 3⟩ (by simp)
